import Mathlib

/-!
Verification of the CSV-to-Scribus booklet generator.

This file gives a shallow embedding of the layout / pagination logic of the
repository (the `final_pdf.py` variants and `quiz_from_csv.py`) and proves
properties of it.  Host (Scribus) primitives are modelled as oracles: a
fallible host call is a value of type `Except HostErr α`, and measurement
primitives such as `textOverflows` are abstracted as functions of the frame
height or of the text, since the embedding cannot rasterise glyphs.
All lengths are rationals (`ℚ`), standing for the floating point values of
the source; the arithmetic performed by the source on these quantities is
exact decimal arithmetic, so `ℚ` represents it faithfully.
-/

/-! ### C6: boundary classification (`simple_boundary_check`)

Source: `markdown version double column/final_pdf.py`, `simple_boundary_check`.
`safe_boundary = PAGE_HEIGHT - MARGINS[3] - 40`; a new page is created iff
`y_offset + element_height > safe_boundary`. -/

def simple_boundary_check (page_height margin_bottom y_offset element_height : ℚ) : Bool :=
  let safe_boundary := page_height - margin_bottom - 40
  decide (y_offset + element_height > safe_boundary)

/-- C6: an element whose bottom lands exactly on the safe boundary is FIT
(no new page); a new page is forced only on strict excess. -/
theorem simple_boundary_check_inclusive (ph mb y h : ℚ) :
    (y + h = ph - mb - 40 → simple_boundary_check ph mb y h = false)
    ∧ (simple_boundary_check ph mb y h = true ↔ y + h > ph - mb - 40) := by
  constructor
  · intro heq
    simp [simple_boundary_check, heq]
  · simp [simple_boundary_check]

/-- C6 witness: with the page geometry of the source (`PAGE_HEIGHT = 595`,
bottom margin 28) an element ending exactly at the 527pt boundary is FIT. -/
theorem simple_boundary_check_inclusive_witness :
    ((500 : ℚ) + 27 = 595 - 28 - 40)
    ∧ simple_boundary_check 595 28 500 27 = false :=
  ⟨by norm_num, (simple_boundary_check_inclusive 595 28 500 27).1 (by norm_num)⟩

/-! ### C8: inter-template spacing (`process_template` / `create_pages_from_json`)

Source: the walker computes `next_tmpl_same_id` with the Python truthiness
guard `if current_id and next_id and current_id == next_id`, and
`process_template` then selects the end-of-template spacing:
continuation → 1, quiz → 2, otherwise 0. -/

def next_is_continuation (current_id next_id : String) : Bool :=
  current_id ≠ "" && next_id ≠ "" && current_id == next_id

def template_end_spacing (next_is_cont : Bool) (has_quiz : Bool) : ℚ :=
  if next_is_cont then 1 else if has_quiz then 2 else 0

def standard_template_gap (has_quiz : Bool) : ℚ :=
  if has_quiz then 2 else 0

/-- C8 counterexample: two consecutive templates with identical (empty) `id`
values, the first carrying a quiz, receive the standard 2pt gap, not ≤ 1pt:
the truthiness guard excludes empty ids from the continuation rule. -/
theorem template_end_spacing_equal_ids_counterexample :
    ("" : String) = ""
    ∧ next_is_continuation "" "" = false
    ∧ template_end_spacing (next_is_continuation "" "") true = 2
    ∧ ¬ (template_end_spacing (next_is_continuation "" "") true ≤ 1) := by
  refine ⟨rfl, rfl, rfl, ?_⟩
  norm_num [template_end_spacing, next_is_continuation]

/-- C8 (amended): identical *non-empty* ids yield the minimal 1pt continuation
gap; differing ids yield the standard template-to-template gap (2pt when the
template has a quiz, 0pt otherwise). -/
theorem template_end_spacing_policy (id1 id2 : String) (has_quiz : Bool) :
    (id1 = id2 → id1 ≠ "" → template_end_spacing (next_is_continuation id1 id2) has_quiz = 1)
    ∧ (id1 ≠ id2 →
        template_end_spacing (next_is_continuation id1 id2) has_quiz
          = standard_template_gap has_quiz) := by
  constructor
  · intro heq hne
    subst heq
    simp [next_is_continuation, hne, template_end_spacing]
  · intro hne
    have : (id1 == id2) = false := by
      simp [hne]
    simp [next_is_continuation, this, template_end_spacing, standard_template_gap]

/-- C8 witness: ids "12" = "12" give a 1pt gap; ids "12" ≠ "13" with a quiz
give the standard 2pt gap. -/
theorem template_end_spacing_policy_witness :
    template_end_spacing (next_is_continuation "12" "12") false = 1
    ∧ template_end_spacing (next_is_continuation "12" "13") true
        = standard_template_gap true :=
  ⟨(template_end_spacing_policy "12" "12" false).1 rfl (by decide),
   (template_end_spacing_policy "12" "13" true).2 (by decide)⟩

/-! ### C7: global template limit (`create_pages_from_json` / `process_template`)

Source: the walker checks `if global_template_count >= GLOBAL_TEMPLATE_LIMIT:
break` before each area, chapter, topic, module and template; only
`process_template` increments the counter (by one, at its end). -/

structure TemplateNode where
  id : String
  has_quiz : Bool

structure ModuleNode where
  name : String
  templates : List TemplateNode

structure TopicNode where
  templates : List TemplateNode
  modules : List ModuleNode

structure ChapterNode where
  topics : List TopicNode

structure AreaNode where
  chapters : List ChapterNode

def process_template_count (count : Nat) : Nat := count + 1

def walk_templates (limit : Nat) : List TemplateNode → Nat → Nat
  | [], count => count
  | _ :: rest, count =>
    if count ≥ limit then count
    else walk_templates limit rest (process_template_count count)

def walk_modules (limit : Nat) : List ModuleNode → Nat → Nat
  | [], count => count
  | m :: rest, count =>
    if count ≥ limit then count
    else walk_modules limit rest (walk_templates limit m.templates count)

def walk_topics (limit : Nat) : List TopicNode → Nat → Nat
  | [], count => count
  | t :: rest, count =>
    if count ≥ limit then count
    else
      walk_topics limit rest
        (walk_modules limit t.modules (walk_templates limit t.templates count))

def walk_chapters (limit : Nat) : List ChapterNode → Nat → Nat
  | [], count => count
  | c :: rest, count =>
    if count ≥ limit then count
    else walk_chapters limit rest (walk_topics limit c.topics count)

def walk_areas (limit : Nat) : List AreaNode → Nat → Nat
  | [], count => count
  | a :: rest, count =>
    if count ≥ limit then count
    else walk_areas limit rest (walk_chapters limit a.chapters count)

def create_pages_template_count (limit : Nat) (areas : List AreaNode) : Nat :=
  walk_areas limit areas 0

theorem walk_templates_le (limit : Nat) (ts : List TemplateNode) :
    ∀ count, count ≤ limit → walk_templates limit ts count ≤ limit := by
  induction ts with
  | nil => intro count h; simpa [walk_templates] using h
  | cons t rest ih =>
    intro count h
    by_cases hc : count ≥ limit
    · simpa [walk_templates, hc] using h
    · have : count + 1 ≤ limit := by omega
      simpa [walk_templates, hc, process_template_count] using ih (count + 1) this

theorem walk_modules_le (limit : Nat) (ms : List ModuleNode) :
    ∀ count, count ≤ limit → walk_modules limit ms count ≤ limit := by
  induction ms with
  | nil => intro count h; simpa [walk_modules] using h
  | cons m rest ih =>
    intro count h
    by_cases hc : count ≥ limit
    · simpa [walk_modules, hc] using h
    · simpa [walk_modules, hc] using
        ih _ (walk_templates_le limit m.templates count h)

theorem walk_topics_le (limit : Nat) (ts : List TopicNode) :
    ∀ count, count ≤ limit → walk_topics limit ts count ≤ limit := by
  induction ts with
  | nil => intro count h; simpa [walk_topics] using h
  | cons t rest ih =>
    intro count h
    by_cases hc : count ≥ limit
    · simpa [walk_topics, hc] using h
    · simpa [walk_topics, hc] using
        ih _ (walk_modules_le limit t.modules _
          (walk_templates_le limit t.templates count h))

theorem walk_chapters_le (limit : Nat) (cs : List ChapterNode) :
    ∀ count, count ≤ limit → walk_chapters limit cs count ≤ limit := by
  induction cs with
  | nil => intro count h; simpa [walk_chapters] using h
  | cons c rest ih =>
    intro count h
    by_cases hc : count ≥ limit
    · simpa [walk_chapters, hc] using h
    · simpa [walk_chapters, hc] using ih _ (walk_topics_le limit c.topics count h)

theorem walk_areas_le (limit : Nat) (as : List AreaNode) :
    ∀ count, count ≤ limit → walk_areas limit as count ≤ limit := by
  induction as with
  | nil => intro count h; simpa [walk_areas] using h
  | cons a rest ih =>
    intro count h
    by_cases hc : count ≥ limit
    · simpa [walk_areas, hc] using h
    · simpa [walk_areas, hc] using ih _ (walk_chapters_le limit a.chapters count h)

theorem walk_areas_at_limit (limit : Nat) (as : List AreaNode) :
    walk_areas limit as limit = limit := by
  cases as with
  | nil => rfl
  | cons a rest => simp [walk_areas]

/-- C7: for every input document the global template counter never exceeds
`GLOBAL_TEMPLATE_LIMIT` (the count of processed templates, starting at 0,
stays ≤ the limit), and once the counter has reached the limit the traversal
processes nothing further (it is a normal stop, returning the count as is). -/
theorem global_template_limit_respected (limit : Nat) (areas : List AreaNode) :
    create_pages_template_count limit areas ≤ limit
    ∧ walk_areas limit areas limit = limit :=
  ⟨walk_areas_le limit areas 0 (Nat.zero_le limit),
   walk_areas_at_limit limit areas⟩

/-! ### C10: CSV quiz reader (`quiz_from_csv.py`, `read_csv_data`)

Source: rows are grouped into a dict keyed by `QuestionID` (insertion order
preserved, modelled as an association list); each row appends one answer.
The source contains a filter marked `TEMPORARY` that skips every row whose
`ChapterNode` differs from the literal string of chapter 1a. -/

structure CsvRow where
  chapter : String
  question_id : String
  question_text : String
  answer_number : String
  answer_text : String
  correct_flag : String

structure QuizAnswer where
  number : String
  text : String
  correct : String
deriving DecidableEq

structure QuizQuestion where
  chapter : String
  question_id : String
  question_text : String
  answers : List QuizAnswer
deriving DecidableEq

def row_answer (row : CsvRow) : QuizAnswer :=
  ⟨row.answer_number, row.answer_text, row.correct_flag⟩

def add_row_to_questions (qs : List QuizQuestion) (row : CsvRow) : List QuizQuestion :=
  match qs with
  | [] => [⟨row.chapter, row.question_id, row.question_text, [row_answer row]⟩]
  | q :: rest =>
    if q.question_id = row.question_id then
      { q with answers := q.answers ++ [row_answer row] } :: rest
    else
      q :: add_row_to_questions rest row

def read_csv_data (rows : List CsvRow) : List QuizQuestion :=
  rows.foldl
    (fun qs row =>
      if row.chapter ≠ "1a" then qs   -- TEMPORARY chapter filter in the source
      else add_row_to_questions qs row)
    []

/-- C10: the reader drops every row whose ChapterNode is not the hard-coded test
chapter, so not every input row is represented: of two well-formed rows
(chapters 1a and 2a, distinct QuestionIDs) only the first survives. -/
theorem read_csv_data_drops_other_chapters :
    read_csv_data
        [⟨"1a", "Q1", "First?", "1", "yes", "V"⟩,
         ⟨"2a", "Q2", "Second?", "1", "no", "F"⟩]
      = [⟨"1a", "Q1", "First?", [⟨"1", "yes", "V"⟩]⟩]
    ∧ ((read_csv_data
        [⟨"1a", "Q1", "First?", "1", "yes", "V"⟩,
         ⟨"2a", "Q2", "Second?", "1", "no", "F"⟩]).filter
          (fun q => q.question_id = "Q2")) = [] := by
  constructor <;> rfl

/-! ### C5: `find_fit` page split round trip (`src/final_pdf.py`)

Source: `find_fit` binary-searches the longest prefix of the text that does
not overflow the frame (`lo, hi, best = 0, len(text), 0`, Python floor
division for the midpoint, hence `Int` bounds here); the overflow probe for
a prefix length is abstracted as an oracle `ov`.  In
`place_wrapped_text_and_images` the emitted chunk is `remaining[:actual_fit]`
and the carried remainder is `remaining[chunk_len:]`. -/

def find_fit_loop (ov : Nat → Bool) (lo hi : Int) (best : Nat) : Nat :=
  if h : lo ≤ hi then
    let mid := (lo + hi) / 2
    if ov mid.toNat = true then find_fit_loop ov lo (mid - 1) best
    else find_fit_loop ov (mid + 1) hi mid.toNat
  else best
termination_by (hi + 1 - lo).toNat
decreasing_by
  · omega
  · omega

def find_fit (ov : Nat → Bool) (text : List Char) : Nat :=
  if text = [] then 0
  else find_fit_loop ov 0 (text.length : Int) 0

def page_split (ov : Nat → Bool) (remaining : List Char) : List Char × List Char :=
  let actual_fit := find_fit ov remaining
  (remaining.take actual_fit, remaining.drop actual_fit)

theorem find_fit_loop_le (ov : Nat → Bool) (B : Nat) :
    ∀ (lo hi : Int) (best : Nat), best ≤ B → hi ≤ (B : Int) →
      find_fit_loop ov lo hi best ≤ B := by
  intro lo hi best hb hh
  induction lo, hi, best using find_fit_loop.induct ov with
  | case1 lo hi best h mid hov ih =>
    rw [find_fit_loop]
    simp only [h, dite_true, hov, if_true]
    exact ih hb (by omega)
  | case2 lo hi best h mid hov ih =>
    rw [find_fit_loop]
    simp only [h, dite_true, hov]
    simp only [Bool.not_eq_true] at hov
    exact ih (by omega) hh
  | case3 lo hi best h =>
    rw [find_fit_loop]
    simp [h, hb]

theorem find_fit_le (ov : Nat → Bool) (text : List Char) :
    find_fit ov text ≤ text.length := by
  unfold find_fit
  by_cases h : text = []
  · simp [h]
  · simp only [h, if_false]
    exact find_fit_loop_le ov text.length 0 (text.length : Int) 0 (Nat.zero_le _) le_rfl

/-- C5: splitting a content text across pages loses and duplicates nothing:
the prefix emitted on the current page (of the length found by `find_fit`)
concatenated with the carried remainder reproduces the original text, and
the prefix length never exceeds the text length. -/
theorem page_split_round_trip (ov : Nat → Bool) (remaining : List Char) :
    (page_split ov remaining).1 ++ (page_split ov remaining).2 = remaining
    ∧ (page_split ov remaining).1 = remaining.take (find_fit ov remaining)
    ∧ find_fit ov remaining ≤ remaining.length :=
  ⟨List.take_append_drop _ remaining, rfl, find_fit_le ov remaining⟩

/-! ### C1: bounded probe-and-expand loops (`place_text_block_flow`)

Source: `markdown version double column/final_pdf.py`.  Each overflow loop
repeatedly grows the frame height while the host reports overflow, guarded
by `overflow_iterations < max_overflow_iterations`.  The host's
`textOverflows` answer is abstracted as a function of the current frame
height.  The two balanced-column loops use the adaptive increment schedule
(10pt, then 5pt, then 2pt) with a cap of 200; the single-frame loop grows by
3pt with a cap of 100; the basic fallback grows by 2pt with a cap of 15. -/

def adaptive_increment (it : Nat) : ℚ :=
  if it < 50 then 10 else if it < 100 then 5 else 2

def expand_frame_loop (overflows : ℚ → Bool) (inc : Nat → ℚ) (cap : Nat)
    (h : ℚ) (it : Nat) : ℚ × Nat :=
  if hc : overflows h = true ∧ it < cap then
    expand_frame_loop overflows inc cap (h + inc it) (it + 1)
  else (h, it)
termination_by cap - it
decreasing_by omega

def balanced_column_overflow_loop (overflows : ℚ → Bool) (h0 : ℚ) : ℚ × Nat :=
  expand_frame_loop overflows adaptive_increment 200 h0 0

def single_frame_overflow_loop (overflows : ℚ → Bool) (h0 : ℚ) : ℚ × Nat :=
  expand_frame_loop overflows (fun _ => 3) 100 h0 0

def fallback_overflow_loop (overflows : ℚ → Bool) (h0 : ℚ) : ℚ × Nat :=
  expand_frame_loop overflows (fun _ => 2) 15 h0 0

theorem expand_frame_loop_iter_le (overflows : ℚ → Bool) (inc : Nat → ℚ) (cap : Nat) :
    ∀ (h : ℚ) (it : Nat), (expand_frame_loop overflows inc cap h it).2 ≤ max cap it := by
  intro h it
  induction h, it using expand_frame_loop.induct overflows inc cap with
  | case1 h it hc ih =>
    rw [expand_frame_loop, dif_pos hc]
    refine le_trans ih ?_
    omega
  | case2 h it hc =>
    rw [expand_frame_loop, dif_neg hc]
    exact Nat.le_max_right cap it

/-- C1: every overflow-expansion loop of `place_text_block_flow` terminates
within its configured iteration cap, for every overflow oracle and every
starting height (hence every input text and column width), and the caps used
by the source (200, 200, 100, 15) all lie in the 10-200 range. -/
theorem place_text_block_flow_loops_bounded (overflows : ℚ → Bool) (h0 : ℚ) :
    (balanced_column_overflow_loop overflows h0).2 ≤ 200
    ∧ (single_frame_overflow_loop overflows h0).2 ≤ 100
    ∧ (fallback_overflow_loop overflows h0).2 ≤ 15
    ∧ ([200, 200, 100, 15].all fun c => decide (10 ≤ c) && decide (c ≤ 200)) = true := by
  refine ⟨?_, ?_, ?_, by decide⟩
  · simpa using expand_frame_loop_iter_le overflows adaptive_increment 200 h0 0
  · simpa using expand_frame_loop_iter_le overflows (fun _ => 3) 100 h0 0
  · simpa using expand_frame_loop_iter_le overflows (fun _ => 2) 15 h0 0

/-! ### C2: `measure_text_height` error handling

Source: `markdown version double column/final_pdf.py`.  Host calls are
modelled as `Except`-valued oracle fields; the style-setting calls that the
source wraps in their own inner try/except blocks (they swallow their errors
and do not influence the returned value) are omitted.  Crucially, the probe
creation `scribus.createText(...)` sits *before* the `try:` block in the
source, so an error there propagates to the caller; only errors raised
inside the try body reach the `except:` fallback branch. -/

inductive HostErr where
  | err
deriving DecidableEq

structure ScribusHost where
  createText : Except HostErr Nat
  setText : String → Nat → Except HostErr Unit
  textOverflows : Nat → Except HostErr Bool
  getTextLines : Nat → Except HostErr Nat
  getLineSpacing : Nat → Except HostErr ℚ
  getTextDistances : Nat → Except HostErr (ℚ × ℚ × ℚ × ℚ)
  deleteObject : Nat → Except HostErr Unit

def count_words (s : String) : Nat :=
  ((s.split Char.isWhitespace).filter (fun w => w ≠ "")).length

def measure_precise (host : ScribusHost) (probe : Nat) (text : String)
    (font_size : ℚ) : ℚ :=
  match host.getTextLines probe with
  | .error _ => (text.length : ℚ) * (3 / 10)
  | .ok num_lines =>
    if num_lines > 0 then
      let line_spacing :=
        match host.getLineSpacing probe with
        | .ok l => l
        | .error _ => font_size * (12 / 10)
      let text_height := (num_lines : ℚ) * line_spacing
      match host.getTextDistances probe with
      | .ok (_l, _r, top, bottom) => text_height + top + bottom
      | .error _ => text_height
    else font_size * 3

def measure_body (host : ScribusHost) (probe : Nat) (text : String)
    (font_size : ℚ) : Except HostErr ℚ := do
  _ ← host.setText text probe
  let ov ← host.textOverflows probe
  let needed_height :=
    if ov then
      let words := count_words text
      let lines_estimate := max (words / 8) (text.length / 80)
      (lines_estimate : ℚ) * font_size * (13 / 10)
    else measure_precise host probe text font_size
  _ ← host.deleteObject probe
  pure (max (needed_height + font_size * (1 / 2)) (font_size * 2))

def fallback_estimate (text : String) (font_size : ℚ) : ℚ :=
  ((max (text.length / 50) 1 : Nat) : ℚ) * font_size * (3 / 2)

def measure_text_height (host : ScribusHost) (text : String)
    (font_size : ℚ) : Except HostErr ℚ :=
  if text = "" then .ok (font_size * 2)
  else
    match host.createText with
    | .error e => .error e
    | .ok probe =>
      match measure_body host probe text font_size with
      | .ok h => .ok h
      | .error _ => .ok (fallback_estimate text font_size)

def probe_failing_host : ScribusHost where
  createText := .error .err
  setText := fun _ _ => .ok ()
  textOverflows := fun _ => .ok false
  getTextLines := fun _ => .ok 1
  getLineSpacing := fun _ => .ok 10
  getTextDistances := fun _ => .ok (0, 0, 0, 0)
  deleteObject := fun _ => .ok ()

/-- C2: on a host whose probe creation fails, `measure_text_height`
propagates the error instead of returning the documented character-count
fallback (which for this 19-character text at font size 8 would have been
`max(19/50, 1) * 8 * 1.5 = 12`): `createText` sits outside the try block. -/
theorem measure_text_height_probe_failure_raises :
    measure_text_height probe_failing_host "The quick brown fox" 8 = .error .err
    ∧ fallback_estimate "The quick brown fox" 8 = 12 := by
  constructor
  · rfl
  · have hlen : "The quick brown fox".length = 19 := rfl
    unfold fallback_estimate
    rw [hlen]
    norm_num

/-! ### C3: quiz block pagination (`place_quiz`)

Source: `markdown version double column/final_pdf.py`.  Constants from the
source: header height 24pt, compact row height 16pt; `safe_boundary =
PAGE_HEIGHT - MARGINS[3] - 40` is the `boundary` parameter here and
`MARGINS[1]` (the reset `y_offset` of `new_page`) is `top`.  Before any row
is drawn the source moves to a new page when the available space is below
`header_height + 2 * row_height`; inside the row loop a row that would cross
the boundary triggers a new page and is then drawn whole (rows are the unit
of pagination).  `check_text_overflow` is the row-height heuristic
(non-header branch); `place_quiz` takes the list of computed row heights and
returns the list of placed rows as (page, y, height) triples together with
the final cursor state.
-/

def quiz_header_height : ℚ := 24
def quiz_row_height : ℚ := 16

def min_quiz_start_space : ℚ := quiz_header_height + quiz_row_height * 2

def check_text_overflow (text_len : Nat) (width font_size default_height : ℚ) : ℚ :=
  let chars_per_line := width / (font_size * (42 / 100))
  if (text_len : ℚ) ≤ chars_per_line * (85 / 100) then default_height
  else
    let lines_needed : ℤ := ⌊(text_len : ℚ) / chars_per_line⌋ + 1
    if (text_len : ℚ) ≤ chars_per_line * (12 / 10) then default_height * (13 / 10)
    else
      let line_height := font_size * (12 / 10)
      let calculated_height := ((lines_needed : ℚ) * line_height + 3) * (11 / 10)
      max default_height calculated_height

def place_quiz_rows (boundary top : ℚ) :
    List ℚ → ℚ → Nat → List (Nat × ℚ × ℚ) × ℚ × Nat
  | [], y, page => ([], y, page)
  | h :: rest, y, page =>
    if y + h > boundary then
      let r := place_quiz_rows boundary top rest (top + h) (page + 1)
      ((page + 1, top, h) :: r.1, r.2)
    else
      let r := place_quiz_rows boundary top rest (y + h) page
      ((page, y, h) :: r.1, r.2)

def place_quiz (boundary top : ℚ) (header_placed : Bool) (rows : List ℚ)
    (y0 : ℚ) (page0 : Nat) : List (Nat × ℚ × ℚ) × ℚ × Nat :=
  if boundary - y0 < min_quiz_start_space then
    place_quiz_rows boundary top rows (min (top + quiz_header_height) boundary) (page0 + 1)
  else
    let y2 := if header_placed then y0 else min (y0 + quiz_header_height) boundary
    place_quiz_rows boundary top rows y2 page0

theorem place_quiz_rows_spec (boundary top : ℚ) :
    ∀ (rows : List ℚ) (y : ℚ) (page : Nat),
      (((place_quiz_rows boundary top rows y page).1.all
          fun t => decide (page ≤ t.1)) = true)
      ∧ (place_quiz_rows boundary top rows y page).1.map (fun t => t.2.2) = rows := by
  intro rows
  induction rows with
  | nil => intro y page; simp [place_quiz_rows]
  | cons h rest ih =>
    intro y page
    by_cases hfit : y + h > boundary
    · have spec := ih (top + h) (page + 1)
      constructor
      · simp only [place_quiz_rows, hfit, if_true, List.all_cons, Bool.and_eq_true]
        refine ⟨by simp, ?_⟩
        rw [List.all_eq_true]
        intro t ht
        have h2 := List.all_eq_true.mp spec.1 t ht
        simp only [decide_eq_true_eq] at h2 ⊢
        omega
      · simp only [place_quiz_rows, hfit, if_true, List.map_cons]
        rw [spec.2]
    · have spec := ih (y + h) page
      constructor
      · simp only [place_quiz_rows, hfit, if_false, List.all_cons, Bool.and_eq_true]
        exact ⟨by simp, spec.1⟩
      · simp only [place_quiz_rows, hfit, if_false, List.map_cons]
        rw [spec.2]

/-- C3: when the remaining space is below the quiz header height plus two
row heights, the whole quiz block is deferred: a new page is taken before the
header and every row lands on a page after the current one, and every row is
placed whole (the emitted heights are exactly the input row heights, so no
row is split). -/
theorem place_quiz_defers_when_tight (boundary top : ℚ) (rows : List ℚ)
    (y0 : ℚ) (page0 : Nat) (htight : boundary - y0 < min_quiz_start_space) :
    (((place_quiz boundary top false rows y0 page0).1.all
        fun t => decide (page0 + 1 ≤ t.1)) = true)
    ∧ (place_quiz boundary top false rows y0 page0).1.map (fun t => t.2.2) = rows := by
  unfold place_quiz
  rw [if_pos htight]
  exact place_quiz_rows_spec boundary top rows _ (page0 + 1)

/-- C3 witness: with the source geometry (boundary 527pt, top margin 28pt),
rows needing heights [16,16,16,16] and only 20pt remaining are deferred to
the next page as a whole; a 40-character question at the quiz text width
378pt indeed needs the compact 16pt row height. -/
theorem place_quiz_defers_witness :
    ((527 : ℚ) - 507 < min_quiz_start_space)
    ∧ (((place_quiz 527 28 false [16, 16, 16, 16] 507 1).1.all
        fun t => decide (2 ≤ t.1)) = true)
    ∧ (place_quiz 527 28 false [16, 16, 16, 16] 507 1).1.map (fun t => t.2.2)
        = [16, 16, 16, 16]
    ∧ check_text_overflow 40 378 8 16 = 16 := by
  have h : (527 : ℚ) - 507 < min_quiz_start_space := by
    norm_num [min_quiz_start_space, quiz_header_height, quiz_row_height]
  have spec := place_quiz_defers_when_tight 527 28 [16, 16, 16, 16] 507 1 h
  refine ⟨h, spec.1, spec.2, ?_⟩
  norm_num [check_text_overflow]

/-! ### C9: input validation before document creation (`create_pages_from_json`)

Source: `markdown version double column/final_pdf.py`, the load/validate
prelude of `create_pages_from_json`.  `json.load` is modelled as a parse
result `Except String JValue`; on a parse error the source shows a message
box and returns; then `data.get("areas")` is checked with
`isinstance(..., list)`.  Python's `dict.get` exists only on objects: when
the parse result is not a JSON object the attribute lookup raises an
uncaught `AttributeError` instead (`LoadOutcome.raiseAttributeError`).
`scribus.newDocument` is called only after these checks, i.e. only on the
`proceed` outcome.
-/

inductive JValue where
  | null
  | boolean (b : Bool)
  | num (q : ℚ)
  | str (s : String)
  | arr (items : List JValue)
  | obj (fields : List (String × JValue))

def jget : List (String × JValue) → String → Option JValue
  | [], _ => none
  | (k, v) :: rest, key => if k = key then some v else jget rest key

inductive LoadOutcome where
  | abortMessage (title msg : String)
  | raiseAttributeError
  | proceed (areas : List JValue)

def create_pages_load (parsed : Except String JValue) : LoadOutcome :=
  match parsed with
  | .error e => .abortMessage "Error" e
  | .ok (JValue.obj fields) =>
    match jget fields "areas" with
    | some (JValue.arr items) => .proceed items
    | _ => .abortMessage "Bad JSON" "areas missing or invalid"
  | .ok _ => .raiseAttributeError

def outcome_creates_document : LoadOutcome → Bool
  | .proceed _ => true
  | _ => false

def outcome_reports_and_returns : LoadOutcome → Bool
  | .abortMessage _ _ => true
  | _ => false

def areas_is_list (fields : List (String × JValue)) : Bool :=
  match jget fields "areas" with
  | some (JValue.arr _) => true
  | _ => false

/-- C9 counterexample: a parseable JSON whose top level is an array (which
lacks a list-valued areas key) does not get the report-and-return treatment:
the attribute lookup raises instead (though still no document is created). -/
theorem create_pages_load_nonobject_counterexample :
    create_pages_load (.ok (JValue.arr [])) = .raiseAttributeError
    ∧ outcome_reports_and_returns (create_pages_load (.ok (JValue.arr []))) = false
    ∧ outcome_creates_document (create_pages_load (.ok (JValue.arr []))) = false :=
  ⟨rfl, rfl, rfl⟩

/-- C9 (amended): a parse error, or an object-typed JSON whose areas key is
missing or not a list, is reported via a message box and generation returns;
a document is only ever created when the parse succeeded with an object
carrying a list-valued areas key - so no document, page or frame is produced
on any failing path. -/
theorem create_pages_load_validation (parsed : Except String JValue) :
    (∀ e, parsed = .error e → create_pages_load parsed = .abortMessage "Error" e)
    ∧ (∀ fields, parsed = .ok (JValue.obj fields) → areas_is_list fields = false →
        create_pages_load parsed = .abortMessage "Bad JSON" "areas missing or invalid")
    ∧ (outcome_creates_document (create_pages_load parsed) = true →
        ∃ fields items, parsed = .ok (JValue.obj fields)
          ∧ jget fields "areas" = some (JValue.arr items)) := by
  refine ⟨?_, ?_, ?_⟩
  · intro e he
    subst he
    rfl
  · intro fields hp hlist
    subst hp
    unfold create_pages_load
    unfold areas_is_list at hlist
    match hj : jget fields "areas" with
    | none => simp [hj]
    | some JValue.null => simp [hj]
    | some (JValue.boolean b) => simp [hj]
    | some (JValue.num q) => simp [hj]
    | some (JValue.str s) => simp [hj]
    | some (JValue.arr items) => rw [hj] at hlist; simp at hlist
    | some (JValue.obj f2) => simp [hj]
  · intro hdoc
    cases parsed with
    | error e => simp [create_pages_load, outcome_creates_document] at hdoc
    | ok v =>
      cases v with
      | obj fields =>
        cases hj : jget fields "areas" with
        | none => simp [create_pages_load, hj, outcome_creates_document] at hdoc
        | some w =>
          cases w with
          | arr items => exact ⟨fields, items, rfl, hj⟩
          | null => simp [create_pages_load, hj, outcome_creates_document] at hdoc
          | boolean b => simp [create_pages_load, hj, outcome_creates_document] at hdoc
          | num q => simp [create_pages_load, hj, outcome_creates_document] at hdoc
          | str s => simp [create_pages_load, hj, outcome_creates_document] at hdoc
          | obj f2 => simp [create_pages_load, hj, outcome_creates_document] at hdoc
      | null => simp [create_pages_load, outcome_creates_document] at hdoc
      | boolean b => simp [create_pages_load, outcome_creates_document] at hdoc
      | num q => simp [create_pages_load, outcome_creates_document] at hdoc
      | str s => simp [create_pages_load, outcome_creates_document] at hdoc
      | arr items => simp [create_pages_load, outcome_creates_document] at hdoc

/-- C9 witness: an unparseable input and an object without areas are both
reported and abort before document creation. -/
theorem create_pages_load_validation_witness :
    create_pages_load (.error "invalid json") = .abortMessage "Error" "invalid json"
    ∧ create_pages_load (.ok (JValue.obj [])) = .abortMessage "Bad JSON" "areas missing or invalid" :=
  ⟨(create_pages_load_validation (.error "invalid json")).1 "invalid json" rfl,
   (create_pages_load_validation (.ok (JValue.obj []))).2.1 [] rfl rfl⟩

/-! ### C4: balanced two-column split search (`place_text_block_flow`)

Source: `markdown version double column/final_pdf.py`, the
`balanced_columns` branch.  `word_segments` is represented by the list of
its segment texts (`segs`); the style payloads do not enter the height
measurements (`measure_text_height` is called on the joined plain text),
and the measurement oracle at the fixed column width, template flag and
font size is `m`.  The loop probes candidate split indices
`range(max(1, mid - search_range), min(total, mid + search_range + 1))`
with `search_range = max(5, min(total // 10, 30))`, skipping candidates
where either side strips to the empty string, tracking the best (smallest)
height difference, and breaking as soon as the best difference drops below
5pt.  `float('inf')`, the initial best difference, is `Option.none`.
-/

def joined_left (segs : List String) (i : Nat) : String :=
  String.join (segs.take i)

def joined_right (segs : List String) (i : Nat) : String :=
  String.join (segs.drop i)

def split_height_diff (m : String → ℚ) (segs : List String) (i : Nat) : ℚ :=
  |m (joined_left segs i) - m (joined_right segs i)|

def candidate_valid (segs : List String) (i : Nat) : Bool :=
  !(joined_left segs i).trim.isEmpty && !(joined_right segs i).trim.isEmpty

def diff_improves (d : ℚ) : Option ℚ → Bool
  | none => true
  | some b => decide (d < b)

def balance_search_loop (m : String → ℚ) (segs : List String) (hi : Nat)
    (i best : Nat) (bestDiff : Option ℚ) : Nat × Option ℚ :=
  if hlt : i < hi then
    if candidate_valid segs i = true then
      if diff_improves (split_height_diff m segs i) bestDiff = true then
        if split_height_diff m segs i < 5 then (i, some (split_height_diff m segs i))
        else balance_search_loop m segs hi (i + 1) i (some (split_height_diff m segs i))
      else balance_search_loop m segs hi (i + 1) best bestDiff
    else balance_search_loop m segs hi (i + 1) best bestDiff
  else (best, bestDiff)
termination_by hi - i
decreasing_by
  · omega
  · omega
  · omega

def balance_search_range (total : Nat) : Nat :=
  max 5 (min (total / 10) 30)

def balance_lo (total : Nat) : Nat :=
  max 1 (total / 2 - balance_search_range total)

def balance_hi (total : Nat) : Nat :=
  min total (total / 2 + balance_search_range total + 1)

def find_best_split (m : String → ℚ) (segs : List String) : Nat × Option ℚ :=
  let total := segs.length
  balance_search_loop m segs (balance_hi total) (balance_lo total) (total / 2) none

set_option maxHeartbeats 2000000 in
theorem balance_search_loop_spec (m : String → ℚ) (segs : List String) (hi : Nat) :
    ∀ (i best : Nat) (bestDiff : Option ℚ),
      (∀ bd, bestDiff = some bd → split_height_diff m segs best = bd) →
      ((∀ bd, bestDiff = some bd →
          ∃ d, (balance_search_loop m segs hi i best bestDiff).2 = some d ∧ d ≤ bd)
       ∧ (∀ d, (balance_search_loop m segs hi i best bestDiff).2 = some d →
           split_height_diff m segs (balance_search_loop m segs hi i best bestDiff).1 = d)
       ∧ ((∃ d, (balance_search_loop m segs hi i best bestDiff).2 = some d ∧ d < 5)
          ∨ (∀ j, i ≤ j → j < hi → candidate_valid segs j = true →
               ∃ d, (balance_search_loop m segs hi i best bestDiff).2 = some d
                 ∧ d ≤ split_height_diff m segs j))) := by
  intro i best bestDiff hInv
  induction i, best, bestDiff using balance_search_loop.induct m segs hi with
  | case1 i best bestDiff hlt hvalid himp hlt5 =>
    rw [balance_search_loop, dif_pos hlt, if_pos hvalid]
    simp only [if_pos himp, if_pos hlt5]
    refine ⟨?_, ?_, ?_⟩
    · intro bd hbd
      subst hbd
      refine ⟨split_height_diff m segs i, rfl, ?_⟩
      simp only [diff_improves, decide_eq_true_eq] at himp
      exact le_of_lt himp
    · intro d2 hd2
      simp only [Option.some.injEq] at hd2
      subst hd2
      rfl
    · exact Or.inl ⟨split_height_diff m segs i, rfl, hlt5⟩
  | case2 i best bestDiff hlt hvalid himp hge5 ih =>
    rw [balance_search_loop, dif_pos hlt, if_pos hvalid]
    simp only [if_pos himp, if_neg hge5]
    have hrec := ih (by intro bd hbd; cases hbd; rfl)
    refine ⟨?_, hrec.2.1, ?_⟩
    · intro bd hbd
      subst hbd
      obtain ⟨d2, hd2, hle⟩ := hrec.1 (split_height_diff m segs i) rfl
      simp only [diff_improves, decide_eq_true_eq] at himp
      exact ⟨d2, hd2, le_trans hle (le_of_lt himp)⟩
    · rcases hrec.2.2 with hearly | hall
      · exact Or.inl hearly
      · refine Or.inr ?_
        intro j hij hjhi hjvalid
        rcases Nat.eq_or_lt_of_le hij with heq | hlt2
        · subst heq
          exact hrec.1 (split_height_diff m segs i) rfl
        · exact hall j hlt2 hjhi hjvalid
  | case3 i best bestDiff hlt hvalid hnimp ih =>
    rw [balance_search_loop, dif_pos hlt, if_pos hvalid]
    simp only [if_neg hnimp]
    have hrec := ih hInv
    refine ⟨hrec.1, hrec.2.1, ?_⟩
    rcases hrec.2.2 with hearly | hall
    · exact Or.inl hearly
    · refine Or.inr ?_
      intro j hij hjhi hjvalid
      rcases Nat.eq_or_lt_of_le hij with heq | hlt2
      · subst heq
        cases bestDiff with
        | none => simp [diff_improves] at hnimp
        | some bd =>
          simp only [diff_improves, decide_eq_true_eq] at hnimp
          push_neg at hnimp
          obtain ⟨d2, hd2, hle⟩ := hrec.1 bd rfl
          exact ⟨d2, hd2, le_trans hle hnimp⟩
      · exact hall j hlt2 hjhi hjvalid
  | case4 i best bestDiff hlt hvalid ih =>
    rw [balance_search_loop, dif_pos hlt, if_neg hvalid]
    have hrec := ih hInv
    refine ⟨hrec.1, hrec.2.1, ?_⟩
    rcases hrec.2.2 with hearly | hall
    · exact Or.inl hearly
    · refine Or.inr ?_
      intro j hij hjhi hjvalid
      rcases Nat.eq_or_lt_of_le hij with heq | hlt2
      · subst heq
        exact absurd hjvalid hvalid
      · exact hall j hlt2 hjhi hjvalid
  | case5 i best bestDiff hge =>
    rw [balance_search_loop, dif_neg hge]
    refine ⟨?_, ?_, ?_⟩
    · intro bd hbd
      exact ⟨bd, hbd, le_rfl⟩
    · exact hInv
    · refine Or.inr ?_
      intro j hij hjhi _
      omega

/-- C4: the split search probes a bounded neighborhood of the word-count
midpoint (radius capped at 30, hence at most 61 candidate indices); when it
reports a height difference it is the measured difference at the returned
split; and either it exited early with a difference below the 5pt threshold
or it exhausted the full probe range, in which case the returned difference
is minimal among all valid candidates of the range. -/
theorem place_text_block_flow_balance_spec (m : String → ℚ) (segs : List String) :
    balance_search_range segs.length ≤ 30
    ∧ balance_hi segs.length - balance_lo segs.length
        ≤ 2 * balance_search_range segs.length + 1
    ∧ (∀ d, (find_best_split m segs).2 = some d →
        split_height_diff m segs (find_best_split m segs).1 = d)
    ∧ ((∃ d, (find_best_split m segs).2 = some d ∧ d < 5)
       ∨ (∀ j, balance_lo segs.length ≤ j → j < balance_hi segs.length →
            candidate_valid segs j = true →
            ∃ d, (find_best_split m segs).2 = some d
              ∧ d ≤ split_height_diff m segs j)) := by
  have hspec := balance_search_loop_spec m segs (balance_hi segs.length)
      (balance_lo segs.length) (segs.length / 2) none (by intro bd h; cases h)
  refine ⟨?_, ?_, ?_, ?_⟩
  · unfold balance_search_range
    omega
  · unfold balance_hi balance_lo balance_search_range
    omega
  · exact hspec.2.1
  · exact hspec.2.2

/-- C4 witness: the probe-range bounds instantiated on a concrete four-word
segment list. -/
theorem place_text_block_flow_balance_spec_witness :
    balance_search_range (["aa ", "bb ", "cc ", "dd"].length) ≤ 30
    ∧ balance_hi 4 - balance_lo 4 ≤ 2 * balance_search_range 4 + 1 :=
  ⟨(place_text_block_flow_balance_spec (fun s => (s.length : ℚ)) ["aa ", "bb ", "cc ", "dd"]).1,
   (place_text_block_flow_balance_spec (fun s => (s.length : ℚ)) ["aa ", "bb ", "cc ", "dd"]).2.1⟩
